import Mathlib

/-!
Verification of the field-extraction and reconciliation-cycle logic of the
rfid-backend server (`models/wildApricotContact.go`, `main.go`).

The Go code is shallowly embedded: `interface{}` values coming from JSON
decoding become the inductive `Value`; fallible Go functions returning
`(T, error)` become `Except String T` (every error path in the embedded
functions returns the zero value of `T` together with the error, so the
collapse to `Except` is faithful); `uint32` becomes `Nat` with the Go
conversion's explicit `% 2^32`.
-/

namespace RfidBackend

/-- Runtime shape of a Go `interface{}` value produced by `encoding/json`
decoding: `nil`, `string`, `bool`, `float64` (the numeric payload is never
inspected by the embedded code, only its dynamic type, so it is carried as
an `Int` stand-in), `[]interface{}` and `map[string]interface{}` (carried
as an association list; JSON object keys are unique). -/
inductive Value where
  | vnull : Value
  | vstr (s : String) : Value
  | vbool (b : Bool) : Value
  | vnum (x : Int) : Value
  | vlist (items : List Value) : Value
  | vmap (entries : List (String × Value)) : Value


/-- `models.FieldValue`: one entry of a contact's field list. -/
structure FieldValue where
  FieldName : String
  Value : Value
  SystemCode : String := ""


/-- `models.Contact`: an upstream Wild Apricot contact record.  Fields the
extractors never read default to zero values. -/
structure Contact where
  FirstName : String := ""
  LastName : String := ""
  Email : String := ""
  DisplayName : String := ""
  Organization : String := ""
  ProfileLastUpdated : String := ""
  FieldValues : List FieldValue := []
  Id : Int := 0
  Url : String := ""
  IsAccountAdministrator : Bool := false
  TermsOfUseAccepted : Bool := false
  Status : String := ""


/-- Modelled from the spec: the `config` package is not under `src/`; the
extractors read only the two field-name mappings ("Configuration maps
logical field names (tag id field, training field) to upstream field
names"). -/
structure Config where
  TagIdFieldName : String
  TrainingFieldName : String


/-- Is `c` an ASCII decimal digit? (`strconv` accepts exactly these in
base 10.) -/
def isDigitChar (c : Char) : Bool :=
  decide ('0' ≤ c) && decide (c ≤ '9')

/-- Accumulating digit scan of Go's `strconv.ParseUint` restricted to
base 10: fails on the first non-digit character. -/
def parseDigitsAux : List Char → Nat → Option Nat
  | [], acc => some acc
  | c :: cs, acc =>
    if isDigitChar c then parseDigitsAux cs (acc * 10 + (c.toNat - 48))
    else none

/-- Go `strconv.ParseUint(s, 10, _)` digit phase: the character list must be
a non-empty run of decimal digits. -/
def parseUintDigits (cs : List Char) : Option Nat :=
  match cs with
  | [] => none
  | _ :: _ => parseDigitsAux cs 0

/-- Go `strconv.ParseInt(s, 10, 32)`: optional leading sign, non-empty
digit run, and the signed result must fit in 32 bits
(`-2^31 ≤ v ≤ 2^31 - 1`).  Out-of-range input is an error in Go
(`ErrRange`), as is any syntax failure; the embedded callers only
distinguish error from success, so the two are carried as distinct message
strings. -/
def parseInt32Core : List Char → Except String Int
  | [] => Except.error "strconv syntax error"
  | c :: rest =>
    if c = '-' then
      match parseUintDigits rest with
      | none => Except.error "strconv syntax error"
      | some un =>
        if un ≤ 2 ^ 31 then Except.ok (-(un : Int))
        else Except.error "strconv range error"
    else if c = '+' then
      match parseUintDigits rest with
      | none => Except.error "strconv syntax error"
      | some un =>
        if un ≤ 2 ^ 31 - 1 then Except.ok (un : Int)
        else Except.error "strconv range error"
    else
      match parseUintDigits (c :: rest) with
      | none => Except.error "strconv syntax error"
      | some un =>
        if un ≤ 2 ^ 31 - 1 then Except.ok (un : Int)
        else Except.error "strconv range error"

/-- `strconv.ParseInt(s, 10, 32)` on a Lean `String`. -/
def parseInt32 (s : String) : Except String Int :=
  parseInt32Core s.toList

/-- Go conversion `uint32(i)` of an `int64`: the low 32 bits, i.e. the
value modulo `2^32`. -/
def toUint32 (i : Int) : Nat :=
  (i % 4294967296).toNat

/-- `models.parseTagId`: `nil` value → `0` with no error; non-string →
error; empty string → `0` with no error; then `strconv.ParseInt(_, 10, 32)`
and a positivity check, returning `uint32(tagId)`. -/
def parseTagId (fieldValue : FieldValue) : Except String Nat :=
  match fieldValue.Value with
  | Value.vnull => Except.ok 0
  | Value.vstr strVal =>
    if strVal.length ≤ 0 then Except.ok 0
    else
      match parseInt32 strVal with
      | Except.error e =>
        Except.error ("failed to convert string TagId to int: " ++ e)
      | Except.ok tagId =>
        if tagId ≤ 0 then Except.error "TagId value is non-positive"
        else Except.ok (toUint32 tagId)
  | _ => Except.error "TagId value is not a string"

/-- `models.extractLabelFromTrainingMap`: `trainingMap["Label"]` must be
present and a string; a missing key yields the `nil` interface, whose
string type assertion fails. -/
def extractLabelFromTrainingMap (trainingMap : List (String × Value)) :
    Except String String :=
  match trainingMap.lookup "Label" with
  | some (Value.vstr label) => Except.ok label
  | _ => Except.error "training label is not a string"

/-- Item loop of `models.parseTrainingLabels`: each item must be a
`map[string]interface{}` with a string `"Label"`; the first failure aborts
with that error and no labels. -/
def parseTrainingItems : List Value → Except String (List String)
  | [] => Except.ok []
  | t :: ts =>
    match t with
    | Value.vmap trainingMap =>
      match extractLabelFromTrainingMap trainingMap with
      | Except.error e => Except.error e
      | Except.ok label =>
        match parseTrainingItems ts with
        | Except.error e => Except.error e
        | Except.ok labels => Except.ok (label :: labels)
    | _ => Except.error "training item is not a map"

/-- `models.parseTrainingLabels`: the field value must assert to
`[]interface{}` (a `nil` value fails this type assertion), then each item
is parsed in order. -/
def parseTrainingLabels (fieldValue : FieldValue) :
    Except String (List String) :=
  match fieldValue.Value with
  | Value.vlist trainingValues => parseTrainingItems trainingValues
  | _ => Except.error "training value is not a slice"

/-- `Contact.ExtractTagID`: linear scan of the field list, the first field
named `cfg.TagIdFieldName` is parsed; no such field → `0`, no error. -/
def Contact.ExtractTagID (c : Contact) (cfg : Config) : Except String Nat :=
  match c.FieldValues.find? (fun val => val.FieldName == cfg.TagIdFieldName) with
  | some val => parseTagId val
  | none => Except.ok 0

/-- `Contact.ExtractTrainingLabels`: linear scan of the field list, the
first field named `cfg.TrainingFieldName` is parsed; no such field → the
`nil` slice (empty label list), no error. -/
def Contact.ExtractTrainingLabels (c : Contact) (cfg : Config) :
    Except String (List String) :=
  match c.FieldValues.find? (fun val => val.FieldName == cfg.TrainingFieldName) with
  | some val => parseTrainingLabels val
  | none => Except.ok []

/-- `Contact.ExtractContactData` result: `(contactId, tagID,
trainingLabels, err)`.  Go returns the `nil` slice for the labels on every
error path, embedded as `[]`. -/
def Contact.ExtractContactData (c : Contact) (cfg : Config) :
    Int × Nat × List String × Option String :=
  match c.ExtractTagID cfg with
  | Except.error e =>
    (0, 0, [],
      some ("error extracting TagId for contact " ++ toString c.Id ++ ": " ++ e))
  | Except.ok tagID =>
    match c.ExtractTrainingLabels cfg with
    | Except.error e =>
      (c.Id, tagID, [],
        some ("error extracting training labels for contact " ++ toString c.Id ++ ": " ++ e))
    | Except.ok trainingLabels => (c.Id, tagID, trainingLabels, none)

/-- `main.updateDatabaseFromWildApricot`, embedded over abstract service
results: `waService.GetContacts` and `dbService.ProcessContactsData` live
in the `services` package (not under `src/`), so the fetch outcome and the
store transformer are parameters.  The returned `Bool` records whether
`ProcessContactsData` was invoked; the `Store` is threaded explicitly. -/
def updateDatabaseFromWildApricot {Store : Type}
    (getContacts : Except String (List Contact))
    (processContactsData : List Contact → Store → Store × Option String)
    (store : Store) : Store × Bool :=
  match getContacts with
  | Except.error _ => (store, false)
  | Except.ok contacts => ((processContactsData contacts store).1, true)

/-- Error-ness of an `Except` result (Go: `err != nil`). -/
def exceptIsError {ε α : Type} : Except ε α → Bool
  | Except.error _ => true
  | Except.ok _ => false

/-! ### Specification-side characterisations

These definitions state, in the spec's own vocabulary, what "decimal
string", "parses to the integer v" and "well-formed training item" mean;
the lemmas connect them to the embedded code. -/

/-- The number denoted by a list of decimal digit characters, most
significant first. -/
def natOfDigits (cs : List Char) : Nat :=
  cs.foldl (fun a c => a * 10 + (c.toNat - 48)) 0

/-- The integer denoted by `s` read as an optionally-signed decimal
numeral, `none` when `s` is not such a numeral.  No width bound: this is
the spec-side notion of "parses to an integer". -/
def signedDecimalCore : List Char → Option Int
  | [] => none
  | c :: rest =>
    if c = '-' then
      if rest ≠ [] ∧ rest.all isDigitChar = true then
        some (-(natOfDigits rest : Int))
      else none
    else if c = '+' then
      if rest ≠ [] ∧ rest.all isDigitChar = true then
        some ((natOfDigits rest : Int))
      else none
    else
      if (c :: rest).all isDigitChar = true then
        some ((natOfDigits (c :: rest) : Int))
      else none

/-- The spec-side decimal reading on a Lean `String`. -/
def signedDecimal? (s : String) : Option Int :=
  signedDecimalCore s.toList

/-- A training-list item that `parseTrainingItems` accepts: a map carrying
a string under the key `"Label"`. -/
def isGoodTrainingItem (t : Value) : Bool :=
  match t with
  | Value.vmap entries =>
    match entries.lookup "Label" with
    | some (Value.vstr _) => true
    | _ => false
  | _ => false

/-! ### Bridging lemmas between the `strconv` model and the spec-side
decimal reading -/

theorem parseDigitsAux_eq_of_all_digits (cs : List Char) (acc : Nat)
    (h : cs.all isDigitChar = true) :
    parseDigitsAux cs acc =
      some (cs.foldl (fun a c => a * 10 + (c.toNat - 48)) acc) := by
  induction cs generalizing acc with
  | nil => rfl
  | cons c cs ih =>
    simp only [List.all_cons, Bool.and_eq_true] at h
    simp [parseDigitsAux, h.1, ih _ h.2]

theorem all_digits_of_parseDigitsAux (cs : List Char) (acc n : Nat)
    (h : parseDigitsAux cs acc = some n) : cs.all isDigitChar = true := by
  induction cs generalizing acc with
  | nil => rfl
  | cons c cs ih =>
    by_cases hc : isDigitChar c = true
    · simp only [parseDigitsAux, hc, if_true] at h
      simp [List.all_cons, hc, ih _ h]
    · simp [parseDigitsAux, hc] at h

theorem parseUintDigits_eq_some (cs : List Char) (n : Nat)
    (h : parseUintDigits cs = some n) :
    cs ≠ [] ∧ cs.all isDigitChar = true ∧ n = natOfDigits cs := by
  match cs with
  | [] => simp [parseUintDigits] at h
  | c :: rest =>
    refine ⟨by simp, all_digits_of_parseDigitsAux _ _ _ h, ?_⟩
    rw [parseUintDigits] at h
    rw [parseDigitsAux_eq_of_all_digits _ _
      (all_digits_of_parseDigitsAux _ _ _ h)] at h
    exact (Option.some.inj h).symm

theorem parseUintDigits_of_digits (cs : List Char) (hne : cs ≠ [])
    (h : cs.all isDigitChar = true) :
    parseUintDigits cs = some (natOfDigits cs) := by
  match cs with
  | [] => exact absurd rfl hne
  | c :: rest =>
    rw [parseUintDigits]
    exact parseDigitsAux_eq_of_all_digits _ _ h

theorem not_dash_of_digit (c : Char) (h : isDigitChar c = true) :
    ¬ (c = '-') := by
  intro hc
  subst hc
  exact absurd h (by decide)

theorem not_plus_of_digit (c : Char) (h : isDigitChar c = true) :
    ¬ (c = '+') := by
  intro hc
  subst hc
  exact absurd h (by decide)

/-- Whenever `strconv.ParseInt` succeeds with value `v`, the spec-side
decimal reading gives `v` as well. -/
theorem signedDecimalCore_of_parseInt32Core_ok (cs : List Char) (v : Int)
    (h : parseInt32Core cs = Except.ok v) : signedDecimalCore cs = some v := by
  match cs with
  | [] => exact Except.noConfusion h
  | c :: rest =>
    rw [parseInt32Core] at h
    rw [signedDecimalCore]
    by_cases hdash : c = '-'
    · rw [if_pos hdash] at h
      rw [if_pos hdash]
      rcases hp : parseUintDigits rest with _ | un <;> rw [hp] at h
      · exact Except.noConfusion h
      · simp only [] at h
        obtain ⟨hne, hdig, hval⟩ := parseUintDigits_eq_some _ _ hp
        by_cases hr : un ≤ 2 ^ 31
        · rw [if_pos hr] at h
          rw [if_pos ⟨hne, hdig⟩, ← hval, ← Except.ok.inj h]
        · rw [if_neg hr] at h
          exact Except.noConfusion h
    · by_cases hplus : c = '+'
      · rw [if_neg hdash, if_pos hplus] at h
        rw [if_neg hdash, if_pos hplus]
        rcases hp : parseUintDigits rest with _ | un <;> rw [hp] at h
        · exact Except.noConfusion h
        · simp only [] at h
          obtain ⟨hne, hdig, hval⟩ := parseUintDigits_eq_some _ _ hp
          by_cases hr : un ≤ 2 ^ 31 - 1
          · rw [if_pos hr] at h
            rw [if_pos ⟨hne, hdig⟩, ← hval, ← Except.ok.inj h]
          · rw [if_neg hr] at h
            exact Except.noConfusion h
      · rw [if_neg hdash, if_neg hplus] at h
        rw [if_neg hdash, if_neg hplus]
        rcases hp : parseUintDigits (c :: rest) with _ | un <;> rw [hp] at h
        · exact Except.noConfusion h
        · simp only [] at h
          obtain ⟨hne, hdig, hval⟩ := parseUintDigits_eq_some _ _ hp
          by_cases hr : un ≤ 2 ^ 31 - 1
          · rw [if_pos hr] at h
            rw [if_pos hdig, ← hval, ← Except.ok.inj h]
          · rw [if_neg hr] at h
            exact Except.noConfusion h

/-- String-level corollary of the previous lemma. -/
theorem signedDecimal_of_parseInt32_ok (s : String) (v : Int)
    (h : parseInt32 s = Except.ok v) : signedDecimal? s = some v :=
  signedDecimalCore_of_parseInt32Core_ok s.toList v h

/-- On a non-empty all-digit string whose value fits in `int32`,
`strconv.ParseInt(s, 10, 32)` succeeds with the denoted value. -/
theorem parseInt32_of_digits (c : Char) (rest : List Char) (s : String)
    (hs : s.toList = c :: rest)
    (hdig : (c :: rest).all isDigitChar = true)
    (hrange : natOfDigits (c :: rest) ≤ 2 ^ 31 - 1) :
    parseInt32 s = Except.ok ((natOfDigits (c :: rest) : Int)) := by
  have hc : isDigitChar c = true := by
    simp only [List.all_cons, Bool.and_eq_true] at hdig
    exact hdig.1
  rw [parseInt32, hs, parseInt32Core]
  rw [if_neg (not_dash_of_digit c hc), if_neg (not_plus_of_digit c hc)]
  rw [parseUintDigits_of_digits _ (by simp) hdig]
  simp only []
  rw [if_pos hrange]

theorem toUint32_of_small (n : Nat) (h : n ≤ 2 ^ 31 - 1) :
    toUint32 ((n : Int)) = n := by
  have hb : n ≤ 2147483647 := le_trans h (by norm_num)
  show ((n : Int) % 4294967296).toNat = n
  omega

theorem string_length_pos_of_toList (s : String) (c0 : Char)
    (rest : List Char) (hs : s.toList = c0 :: rest) : ¬ (s.length ≤ 0) := by
  have hlen : s.length = s.toList.length := rfl
  rw [hs, List.length_cons] at hlen
  omega

/-! ### Claim theorems -/

/-- Claim C1, counterexample to the claim as stated: `"2147483648"` is a
non-empty decimal string denoting the positive integer `2147483648`, yet
`ExtractTagID` returns an error because `strconv.ParseInt(_, 10, 32)`
rejects values above `2^31 - 1`. -/
theorem c1_counterexample :
    ((String.toList "2147483648").all isDigitChar = true) ∧
    natOfDigits (String.toList "2147483648") = 2147483648 ∧
    exceptIsError
      (({ FieldValues :=
            [{ FieldName := "TagId", Value := Value.vstr "2147483648" }] } :
          Contact).ExtractTagID
        { TagIdFieldName := "TagId", TrainingFieldName := "Training" }) =
      true :=
  ⟨rfl, rfl, rfl⟩

/-- Claim C1 (amended: the parsed value must additionally fit in the
31-bit positive range of `int32`, i.e. be at most `2^31 - 1`): whenever
the first field named by the configuration holds a non-empty all-digit
string denoting `n` with `1 ≤ n ≤ 2^31 - 1`, `ExtractTagID` returns
`n` with no error. -/
theorem c1_tagid_in_range_ok (c : Contact) (cfg : Config) (fv : FieldValue)
    (s : String)
    (hfind : c.FieldValues.find?
        (fun val => val.FieldName == cfg.TagIdFieldName) = some fv)
    (hv : fv.Value = Value.vstr s)
    (hne : s.toList ≠ [])
    (hdig : s.toList.all isDigitChar = true)
    (hpos : 1 ≤ natOfDigits s.toList)
    (hrange : natOfDigits s.toList ≤ 2 ^ 31 - 1) :
    c.ExtractTagID cfg = Except.ok (natOfDigits s.toList) := by
  rcases hs : s.toList with _ | ⟨c0, rest⟩
  · exact absurd hs hne
  · have hdig2 : (c0 :: rest).all isDigitChar = true := hs ▸ hdig
    have hpos2 : 1 ≤ natOfDigits (c0 :: rest) := hs ▸ hpos
    have hrange2 : natOfDigits (c0 :: rest) ≤ 2 ^ 31 - 1 := hs ▸ hrange
    have hp := parseInt32_of_digits c0 rest s hs hdig2 hrange2
    rw [Contact.ExtractTagID, hfind]
    simp only []
    rw [parseTagId, hv]
    simp only []
    rw [if_neg (string_length_pos_of_toList s c0 rest hs)]
    rw [hp]
    simp only []
    rw [if_neg (show ¬ ((natOfDigits (c0 :: rest) : Int) ≤ 0) by omega)]
    rw [toUint32_of_small _ hrange2]

/-- Claim C1 witness: the spec's own example `"1023"`. -/
theorem c1_witness :
    ({ FieldValues := [{ FieldName := "TagId", Value := Value.vstr "1023" }] } :
        Contact).ExtractTagID
      { TagIdFieldName := "TagId", TrainingFieldName := "Training" } =
      Except.ok 1023 := by
  have h := c1_tagid_in_range_ok
    { FieldValues := [{ FieldName := "TagId", Value := Value.vstr "1023" }] }
    { TagIdFieldName := "TagId", TrainingFieldName := "Training" }
    { FieldName := "TagId", Value := Value.vstr "1023" }
    "1023" rfl rfl (by decide) (by decide) (by decide) (by decide)
  exact h

/-- Claim C2, counterexample to the claim as stated: a present tag-id
field whose value is `nil` does NOT produce an error — `parseTagId`
returns `0` with no error before the string type assertion is reached. -/
theorem c2_counterexample :
    ({ FieldValues := [{ FieldName := "TagId", Value := Value.vnull }] } :
        Contact).ExtractTagID
      { TagIdFieldName := "TagId", TrainingFieldName := "Training" } =
      Except.ok 0 := rfl

/-- Claim C2 (amended: a present tag-id field whose value is neither a
string nor `nil` fails; a `nil` value is instead treated like a blank
field): the non-string non-nil case always yields the
`"TagId value is not a string"` error. -/
theorem c2_non_string_error (c : Contact) (cfg : Config) (fv : FieldValue)
    (hfind : c.FieldValues.find?
        (fun val => val.FieldName == cfg.TagIdFieldName) = some fv)
    (hstr : ∀ s, fv.Value ≠ Value.vstr s)
    (hnil : fv.Value ≠ Value.vnull) :
    c.ExtractTagID cfg = Except.error "TagId value is not a string" := by
  rw [Contact.ExtractTagID, hfind]
  simp only []
  rw [parseTagId]
  rcases hval : fv.Value with _ | s | b | x | items | entries
  · exact absurd hval hnil
  · exact absurd hval (hstr s)
  · rfl
  · rfl
  · rfl
  · rfl

/-- Claim C2 witness: a numeric (non-string, non-nil) field value. -/
theorem c2_witness :
    ({ FieldValues := [{ FieldName := "TagId", Value := Value.vnum 7 }] } :
        Contact).ExtractTagID
      { TagIdFieldName := "TagId", TrainingFieldName := "Training" } =
      Except.error "TagId value is not a string" :=
  c2_non_string_error _ _ _ rfl (fun _ h => Value.noConfusion h)
    (fun h => Value.noConfusion h)

/-- Claim C3: `ExtractTagID` returns `0` with no error both when no field
carries the configured tag-id name and when the first such field holds the
empty string. -/
theorem c3_absent_or_empty_zero (c : Contact) (cfg : Config) :
    (c.FieldValues.find?
        (fun val => val.FieldName == cfg.TagIdFieldName) = none →
      c.ExtractTagID cfg = Except.ok 0) ∧
    (∀ fv, c.FieldValues.find?
        (fun val => val.FieldName == cfg.TagIdFieldName) = some fv →
      fv.Value = Value.vstr "" → c.ExtractTagID cfg = Except.ok 0) := by
  constructor
  · intro hnone
    rw [Contact.ExtractTagID, hnone]
  · intro fv hfind hv
    rw [Contact.ExtractTagID, hfind]
    simp only []
    rw [parseTagId, hv]
    rfl

/-- Claim C3 witness: a contact with no tag-id field, and one whose
tag-id field is the empty string. -/
theorem c3_witness :
    ({ FieldValues := [{ FieldName := "Other", Value := Value.vnull }] } :
        Contact).ExtractTagID
      { TagIdFieldName := "TagId", TrainingFieldName := "Training" } =
      Except.ok 0 ∧
    ({ FieldValues := [{ FieldName := "TagId", Value := Value.vstr "" }] } :
        Contact).ExtractTagID
      { TagIdFieldName := "TagId", TrainingFieldName := "Training" } =
      Except.ok 0 :=
  ⟨(c3_absent_or_empty_zero _ _).1 rfl,
   (c3_absent_or_empty_zero
      { FieldValues := [{ FieldName := "TagId", Value := Value.vstr "" }] }
      { TagIdFieldName := "TagId", TrainingFieldName := "Training" }).2
     { FieldName := "TagId", Value := Value.vstr "" } rfl rfl⟩

/-- Claim C4: when the first tag-id field holds a non-empty string that
does not read as an optionally-signed decimal numeral, or reads as a value
`≤ 0`, `ExtractTagID` returns an error.  (The hypothesis `hbad` covers
both cases at once: every successful spec-side reading of `s` is `≤ 0`;
for a non-numeral string it holds vacuously.) -/
theorem c4_malformed_or_nonpositive_error (c : Contact) (cfg : Config)
    (fv : FieldValue) (s : String)
    (hfind : c.FieldValues.find?
        (fun val => val.FieldName == cfg.TagIdFieldName) = some fv)
    (hv : fv.Value = Value.vstr s)
    (hne : s.toList ≠ [])
    (hbad : ∀ v : Int, signedDecimal? s = some v → v ≤ 0) :
    exceptIsError (c.ExtractTagID cfg) = true := by
  rcases hs : s.toList with _ | ⟨c0, rest⟩
  · exact absurd hs hne
  · rw [Contact.ExtractTagID, hfind]
    simp only []
    rw [parseTagId, hv]
    simp only []
    rw [if_neg (string_length_pos_of_toList s c0 rest hs)]
    rcases hp : parseInt32 s with e | v
    · rfl
    · have hv0 : v ≤ 0 := hbad v (signedDecimal_of_parseInt32_ok s v hp)
      simp only []
      rw [if_pos hv0]
      rfl

/-- Claim C4 witness: the spec's own example `"-5"`, which reads as the
non-positive value `-5`. -/
theorem c4_witness :
    exceptIsError
      (({ FieldValues := [{ FieldName := "TagId", Value := Value.vstr "-5" }] } :
          Contact).ExtractTagID
        { TagIdFieldName := "TagId", TrainingFieldName := "Training" }) =
      true :=
  c4_malformed_or_nonpositive_error _ _ _ "-5" rfl rfl (by decide)
    (fun v hv => by
      have h5 : signedDecimal? "-5" = some (-5) := rfl
      rw [h5] at hv
      injection hv with h
      omega)

theorem isGood_of_extract_ok (entries : List (String × Value)) (label : String)
    (h : extractLabelFromTrainingMap entries = Except.ok label) :
    isGoodTrainingItem (Value.vmap entries) = true := by
  rw [extractLabelFromTrainingMap] at h
  rw [isGoodTrainingItem]
  rcases hl : entries.lookup "Label" with _ | lv <;> rw [hl] at h
  · exact Except.noConfusion h
  · cases lv with
    | vstr s => rfl
    | vnull => exact Except.noConfusion h
    | vbool b => exact Except.noConfusion h
    | vnum x => exact Except.noConfusion h
    | vlist l => exact Except.noConfusion h
    | vmap m => exact Except.noConfusion h

theorem parseTrainingItems_error_of_bad (items : List Value)
    (h : (items.any fun t => !isGoodTrainingItem t) = true) :
    exceptIsError (parseTrainingItems items) = true := by
  induction items with
  | nil =>
    rw [List.any_nil] at h
    exact Bool.noConfusion h
  | cons t ts ih =>
    simp only [List.any_cons, Bool.or_eq_true] at h
    cases t with
    | vmap entries =>
      show exceptIsError
          (match extractLabelFromTrainingMap entries with
           | Except.error e => Except.error e
           | Except.ok label =>
             match parseTrainingItems ts with
             | Except.error e => Except.error e
             | Except.ok labels => Except.ok (label :: labels)) = true
      rcases hlk : extractLabelFromTrainingMap entries with e | label
      · rfl
      · have hgood := isGood_of_extract_ok entries label hlk
        rcases h with hbad | hrest
        · rw [hgood] at hbad
          exact Bool.noConfusion hbad
        · rcases hrec : parseTrainingItems ts with e2 | ls
          · rfl
          · have hx := ih hrest
            rw [hrec] at hx
            exact Bool.noConfusion hx
    | vnull => rfl
    | vstr s => rfl
    | vbool b => rfl
    | vnum x => rfl
    | vlist l => rfl

/-- Claim C5: `ExtractTrainingLabels` returns the empty label list with no
error when no field carries the configured training name; fails when the
first such field's value is not a list; and fails with no labels at all
when any list item is not a map with a string `"Label"`. -/
theorem c5_training_labels_error_handling (c : Contact) (cfg : Config) :
    (c.FieldValues.find?
        (fun val => val.FieldName == cfg.TrainingFieldName) = none →
      c.ExtractTrainingLabels cfg = Except.ok []) ∧
    (∀ fv, c.FieldValues.find?
        (fun val => val.FieldName == cfg.TrainingFieldName) = some fv →
      (∀ items, fv.Value ≠ Value.vlist items) →
      exceptIsError (c.ExtractTrainingLabels cfg) = true) ∧
    (∀ fv items, c.FieldValues.find?
        (fun val => val.FieldName == cfg.TrainingFieldName) = some fv →
      fv.Value = Value.vlist items →
      (items.any fun t => !isGoodTrainingItem t) = true →
      ∀ labels, c.ExtractTrainingLabels cfg ≠ Except.ok labels) := by
  refine ⟨?_, ?_, ?_⟩
  · intro hnone
    rw [Contact.ExtractTrainingLabels, hnone]
  · intro fv hfind hnl
    rw [Contact.ExtractTrainingLabels, hfind]
    simp only []
    rw [parseTrainingLabels]
    rcases hval : fv.Value with _ | s | b | x | items | entries
    · rfl
    · rfl
    · rfl
    · rfl
    · exact absurd hval (hnl items)
    · rfl
  · intro fv items hfind hval hbad labels hok
    rw [Contact.ExtractTrainingLabels, hfind] at hok
    simp only [] at hok
    rw [parseTrainingLabels, hval] at hok
    simp only [] at hok
    have herr := parseTrainingItems_error_of_bad items hbad
    rw [hok] at herr
    exact Bool.noConfusion herr

/-- Claim C5 witness: a contact with no training field; one whose training
field is a string rather than a list; and one whose training list holds an
item with no string `"Label"`. -/
theorem c5_witness :
    ({ FieldValues := [{ FieldName := "Other", Value := Value.vnull }] } :
        Contact).ExtractTrainingLabels
      { TagIdFieldName := "TagId", TrainingFieldName := "Training" } =
      Except.ok [] ∧
    exceptIsError
      (({ FieldValues :=
            [{ FieldName := "Training", Value := Value.vstr "Laser" }] } :
          Contact).ExtractTrainingLabels
        { TagIdFieldName := "TagId", TrainingFieldName := "Training" }) =
      true ∧
    (({ FieldValues :=
          [{ FieldName := "Training",
             Value := Value.vlist [Value.vmap [("Id", Value.vnum 3)]] }] } :
        Contact).ExtractTrainingLabels
      { TagIdFieldName := "TagId", TrainingFieldName := "Training" } ≠
      Except.ok ["Laser"]) :=
  ⟨(c5_training_labels_error_handling _ _).1 rfl,
   (c5_training_labels_error_handling
      { FieldValues :=
          [{ FieldName := "Training", Value := Value.vstr "Laser" }] }
      { TagIdFieldName := "TagId", TrainingFieldName := "Training" }).2.1
     _ rfl (fun _ h => Value.noConfusion h),
   (c5_training_labels_error_handling
      { FieldValues :=
          [{ FieldName := "Training",
             Value := Value.vlist [Value.vmap [("Id", Value.vnum 3)]] }] }
      { TagIdFieldName := "TagId", TrainingFieldName := "Training" }).2.2
     _ _ rfl rfl rfl ["Laser"]⟩

/-- Claim C6: `ExtractContactData` composes the two extractors — a tag-id
error is returned immediately with no labels, a training-label error is
returned together with the contact id and the extracted tagId, and on
double success all extracted data is returned with no error. -/
theorem c6_extract_contact_data_composition (c : Contact) (cfg : Config) :
    (∀ e, c.ExtractTagID cfg = Except.error e →
      c.ExtractContactData cfg =
        (0, 0, [],
          some ("error extracting TagId for contact " ++ toString c.Id ++
            ": " ++ e))) ∧
    (∀ t e, c.ExtractTagID cfg = Except.ok t →
      c.ExtractTrainingLabels cfg = Except.error e →
      c.ExtractContactData cfg =
        (c.Id, t, [],
          some ("error extracting training labels for contact " ++
            toString c.Id ++ ": " ++ e))) ∧
    (∀ t ls, c.ExtractTagID cfg = Except.ok t →
      c.ExtractTrainingLabels cfg = Except.ok ls →
      c.ExtractContactData cfg = (c.Id, t, ls, none)) := by
  refine ⟨?_, ?_, ?_⟩
  · intro e he
    rw [Contact.ExtractContactData, he]
  · intro t e ht he
    rw [Contact.ExtractContactData, ht]
    simp only []
    rw [he]
  · intro t ls ht hls
    rw [Contact.ExtractContactData, ht]
    simp only []
    rw [hls]

/-- Claim C6 witness: three concrete contacts exercising the tag-error,
training-error and all-success paths of `ExtractContactData`. -/
theorem c6_witness :
    ({ Id := 1,
       FieldValues := [{ FieldName := "TagId", Value := Value.vnum 9 }] } :
        Contact).ExtractContactData
      { TagIdFieldName := "TagId", TrainingFieldName := "Training" } =
      (0, 0, [],
        some "error extracting TagId for contact 1: TagId value is not a string") ∧
    ({ Id := 2,
       FieldValues :=
         [{ FieldName := "TagId", Value := Value.vstr "1023" },
          { FieldName := "Training", Value := Value.vstr "Laser" }] } :
        Contact).ExtractContactData
      { TagIdFieldName := "TagId", TrainingFieldName := "Training" } =
      (2, 1023, [],
        some "error extracting training labels for contact 2: training value is not a slice") ∧
    ({ Id := 3,
       FieldValues :=
         [{ FieldName := "TagId", Value := Value.vstr "1023" },
          { FieldName := "Training",
            Value := Value.vlist [Value.vmap [("Label", Value.vstr "Laser")]] }] } :
        Contact).ExtractContactData
      { TagIdFieldName := "TagId", TrainingFieldName := "Training" } =
      (3, 1023, ["Laser"], none) :=
  ⟨(c6_extract_contact_data_composition
      { Id := 1,
        FieldValues := [{ FieldName := "TagId", Value := Value.vnum 9 }] }
      { TagIdFieldName := "TagId", TrainingFieldName := "Training" }).1
     "TagId value is not a string" rfl,
   (c6_extract_contact_data_composition
      { Id := 2,
        FieldValues :=
          [{ FieldName := "TagId", Value := Value.vstr "1023" },
           { FieldName := "Training", Value := Value.vstr "Laser" }] }
      { TagIdFieldName := "TagId", TrainingFieldName := "Training" }).2.1
     1023 "training value is not a slice" rfl rfl,
   (c6_extract_contact_data_composition
      { Id := 3,
        FieldValues :=
          [{ FieldName := "TagId", Value := Value.vstr "1023" },
           { FieldName := "Training",
             Value := Value.vlist [Value.vmap [("Label", Value.vstr "Laser")]] }] }
      { TagIdFieldName := "TagId", TrainingFieldName := "Training" }).2.2
     1023 ["Laser"] rfl rfl⟩

/-- Claim C7: when the upstream contact-list fetch fails,
`updateDatabaseFromWildApricot` returns with the `Store` unchanged and
without invoking `ProcessContactsData`. -/
theorem c7_fetch_failure_no_store_write {Store : Type} (e : String)
    (processContactsData : List Contact → Store → Store × Option String)
    (store : Store) :
    updateDatabaseFromWildApricot (Except.error e) processContactsData store =
      (store, false) := rfl

/-- Claim C7 witness: a concrete store and processing function. -/
theorem c7_witness :
    updateDatabaseFromWildApricot (Except.error "fetch failed")
      (fun _ s => (s ++ [42], none)) ([7] : List Nat) = ([7], false) :=
  c7_fetch_failure_no_store_write "fetch failed" (fun _ s => (s ++ [42], none))
    [7]

theorem find?_first_match {α : Type} (p : α → Bool) (pre post : List α)
    (a : α) (ha : p a = true) (hpre : ∀ w ∈ pre, p w = false) :
    (pre ++ a :: post).find? p = some a := by
  induction pre with
  | nil =>
    rw [List.nil_append, List.find?]
    rw [ha]
  | cons w ws ih =>
    rw [List.cons_append, List.find?]
    rw [hpre w (List.mem_cons_self w ws)]
    exact ih fun x hx => hpre x (List.mem_cons_of_mem w hx)

/-- Claim C9: both extractors act on exactly the first field carrying the
configured name: with the field list split as `pre ++ fv :: post` where no
field of `pre` matches, the result is the parse of `fv`, whatever `post`
holds — later duplicates are ignored and the result is a function of the
ordered field list. -/
theorem c9_first_match_wins (cfg : Config) (pre post : List FieldValue)
    (fv : FieldValue) (c : Contact)
    (hc : c.FieldValues = pre ++ fv :: post) :
    (fv.FieldName = cfg.TagIdFieldName →
      (∀ w ∈ pre, w.FieldName ≠ cfg.TagIdFieldName) →
      c.ExtractTagID cfg = parseTagId fv) ∧
    (fv.FieldName = cfg.TrainingFieldName →
      (∀ w ∈ pre, w.FieldName ≠ cfg.TrainingFieldName) →
      c.ExtractTrainingLabels cfg = parseTrainingLabels fv) := by
  constructor
  · intro hname hpre
    rw [Contact.ExtractTagID, hc]
    rw [find?_first_match (fun val => val.FieldName == cfg.TagIdFieldName)
      pre post fv (beq_iff_eq.mpr hname)
      (fun w hw => beq_eq_false_iff_ne.mpr (hpre w hw))]
  · intro hname hpre
    rw [Contact.ExtractTrainingLabels, hc]
    rw [find?_first_match (fun val => val.FieldName == cfg.TrainingFieldName)
      pre post fv (beq_iff_eq.mpr hname)
      (fun w hw => beq_eq_false_iff_ne.mpr (hpre w hw))]

/-- Claim C9 witness: a field list holding two fields named `"TagId"` and
two named `"Training"`; each extractor uses the first and ignores the
later duplicate. -/
theorem c9_witness :
    ({ FieldValues :=
         [{ FieldName := "Other", Value := Value.vnull },
          { FieldName := "TagId", Value := Value.vstr "7" },
          { FieldName := "TagId", Value := Value.vstr "999" },
          { FieldName := "Training", Value := Value.vlist [] },
          { FieldName := "Training", Value := Value.vnull }] } :
        Contact).ExtractTagID
      { TagIdFieldName := "TagId", TrainingFieldName := "Training" } =
      parseTagId { FieldName := "TagId", Value := Value.vstr "7" } ∧
    ({ FieldValues :=
         [{ FieldName := "Other", Value := Value.vnull },
          { FieldName := "TagId", Value := Value.vstr "7" },
          { FieldName := "TagId", Value := Value.vstr "999" },
          { FieldName := "Training", Value := Value.vlist [] },
          { FieldName := "Training", Value := Value.vnull }] } :
        Contact).ExtractTrainingLabels
      { TagIdFieldName := "TagId", TrainingFieldName := "Training" } =
      parseTrainingLabels { FieldName := "Training", Value := Value.vlist [] } := by
  constructor
  · exact (c9_first_match_wins
      { TagIdFieldName := "TagId", TrainingFieldName := "Training" }
      [{ FieldName := "Other", Value := Value.vnull }]
      [{ FieldName := "TagId", Value := Value.vstr "999" },
       { FieldName := "Training", Value := Value.vlist [] },
       { FieldName := "Training", Value := Value.vnull }]
      { FieldName := "TagId", Value := Value.vstr "7" } _ rfl).1 rfl
      (by
        intro w hw
        simp only [List.mem_singleton] at hw
        rw [hw]
        decide)
  · exact (c9_first_match_wins
      { TagIdFieldName := "TagId", TrainingFieldName := "Training" }
      [{ FieldName := "Other", Value := Value.vnull },
       { FieldName := "TagId", Value := Value.vstr "7" },
       { FieldName := "TagId", Value := Value.vstr "999" }]
      [{ FieldName := "Training", Value := Value.vnull }]
      { FieldName := "Training", Value := Value.vlist [] } _ rfl).2 rfl
      (by
        intro w hw
        simp only [List.mem_cons, List.mem_singleton, List.not_mem_nil,
          or_false] at hw
        rcases hw with rfl | rfl | rfl <;> decide)

/-- Claim C10: a present field with a `nil` value is treated
asymmetrically — `ExtractTagID` returns `0` with no error, while
`ExtractTrainingLabels` fails because `nil` does not type-assert to a
slice. -/
theorem c10_nil_asymmetry (c : Contact) (cfg : Config) :
    (∀ fv, c.FieldValues.find?
        (fun val => val.FieldName == cfg.TagIdFieldName) = some fv →
      fv.Value = Value.vnull → c.ExtractTagID cfg = Except.ok 0) ∧
    (∀ fv, c.FieldValues.find?
        (fun val => val.FieldName == cfg.TrainingFieldName) = some fv →
      fv.Value = Value.vnull →
      c.ExtractTrainingLabels cfg =
        Except.error "training value is not a slice") := by
  constructor
  · intro fv hfind hv
    rw [Contact.ExtractTagID, hfind]
    simp only []
    rw [parseTagId, hv]
  · intro fv hfind hv
    rw [Contact.ExtractTrainingLabels, hfind]
    simp only []
    rw [parseTrainingLabels, hv]

/-- Claim C10 witness: one contact whose tag-id and training fields are
both present with `nil` values. -/
theorem c10_witness :
    ({ FieldValues :=
         [{ FieldName := "TagId", Value := Value.vnull },
          { FieldName := "Training", Value := Value.vnull }] } :
        Contact).ExtractTagID
      { TagIdFieldName := "TagId", TrainingFieldName := "Training" } =
      Except.ok 0 ∧
    ({ FieldValues :=
         [{ FieldName := "TagId", Value := Value.vnull },
          { FieldName := "Training", Value := Value.vnull }] } :
        Contact).ExtractTrainingLabels
      { TagIdFieldName := "TagId", TrainingFieldName := "Training" } =
      Except.error "training value is not a slice" :=
  ⟨(c10_nil_asymmetry
      { FieldValues :=
          [{ FieldName := "TagId", Value := Value.vnull },
           { FieldName := "Training", Value := Value.vnull }] }
      { TagIdFieldName := "TagId", TrainingFieldName := "Training" }).1
     _ rfl rfl,
   (c10_nil_asymmetry
      { FieldValues :=
          [{ FieldName := "TagId", Value := Value.vnull },
           { FieldName := "Training", Value := Value.vnull }] }
      { TagIdFieldName := "TagId", TrainingFieldName := "Training" }).2
     _ rfl rfl⟩

end RfidBackend
